import Mathlib

/-
Verification of the origin repository's registry middleware
(pkg/dockerregistry/server/repositorymiddleware.go) and of the build-graph
analysis subsystem described by the specification (edge projectors and the
unpushable-build / circular-build detectors; their implementation is not part
of the sources at hand, only their test file is, so that part is modelled
from the specification).
-/

/- ===================== Registry middleware embedding ===================== -/

/-- Embeds imageapi.DockerImageReference as used by getImages: only the
Namespace and Name components are inspected there. -/
structure DockerImageReference where
  Registry : String
  Namespace : String
  Name : String
  Tag : String
  ID : String
deriving DecidableEq

/-- The annotation key marking an image as managed by OpenShift
(imageapi.ManagedByOpenShiftAnnotation). -/
def ManagedByOpenShiftAnnotation : String := "openshift.io/image.managed"

/-- Embeds imageapi.Image restricted to the fields read by getImages and
Enumerate: the object name, the annotations map (a Go map, here an
association list) and the DockerImageReference string. -/
structure Image where
  Name : String
  Annotations : List (String × String)
  DockerImageReference : String
deriving DecidableEq

/-- Go map indexing img.Annotations[key]: the zero value "" when the key is
absent (also the behaviour of a nil map). -/
def annotationValue (img : Image) (key : String) : String :=
  match img.Annotations.find? (fun kv => decide (kv.fst = key)) with
  | none => ""
  | some kv => kv.snd

/-- The per-image condition of the loop body of getImages
(repositorymiddleware.go lines 305-316): skip unless the managed annotation
equals "true", the DockerImageReference parses, and the parsed reference has
the repository's namespace and name.  ParseDockerImageReference lives outside
these sources and is taken as a parameter. -/
def matchesRepository (parseRef : String → Option DockerImageReference)
    (namespaceArg nameArg : String) (img : Image) : Bool :=
  decide (annotationValue img ManagedByOpenShiftAnnotation = "true") &&
  (match parseRef img.DockerImageReference with
   | none => false
   | some ref => decide (ref.Namespace = namespaceArg ∧ ref.Name = nameArg))

/-- Embeds (r *repository).getImages: the result of the external
Images().List call is a parameter; on success the items are filtered by the
loop of getImages. -/
def getImages (parseRef : String → Option DockerImageReference)
    (listResult : Except Unit (List Image))
    (namespaceArg nameArg : String) : Except Unit (List Image) :=
  match listResult with
  | Except.error e => Except.error e
  | Except.ok items => Except.ok (items.filter (matchesRepository parseRef namespaceArg nameArg))

/-- Outcome of the external getImageStream call: the Go code only
distinguishes kerrors.IsNotFound(err) from any other error. -/
inductive StreamLookupError where
  | notFound
  | other
deriving DecidableEq

/-- Errors returned by Enumerate.  repositoryUnknown embeds
distribution.ErrRepositoryUnknown{Name: "namespace/name"};
failedToGetImageStream embeds the wrapped
fmt.Errorf("Failed to get image stream %s/%s: %v", ...) error;
imageListError embeds a failure of the underlying image list call. -/
inductive EnumerateError where
  | repositoryUnknown (name : String)
  | failedToGetImageStream (namespaceArg nameArg : String)
  | imageListError
deriving DecidableEq

/-- Embeds (r *repository).Enumerate (repositorymiddleware.go lines 133-158).
The Go pair (nil, err) is rendered as Except.error, and ([]digest, nil) as
Except.ok.  digest.ParseDigest is external and is taken as a parameter
returning the digest (a string) on success.  The result list is built exactly
as in the Go loop: images whose name fails to parse are skipped (only warned
about), parsed digests are appended in order. -/
def Enumerate (parseRef : String → Option DockerImageReference)
    (parseDigest : String → Option String)
    (streamResult : Except StreamLookupError Unit)
    (listResult : Except Unit (List Image))
    (namespaceArg nameArg : String) : Except EnumerateError (List String) :=
  match streamResult with
  | Except.error e =>
      Except.error (match e with
        | StreamLookupError.notFound =>
            EnumerateError.repositoryUnknown (namespaceArg ++ "/" ++ nameArg)
        | StreamLookupError.other =>
            EnumerateError.failedToGetImageStream namespaceArg nameArg)
  | Except.ok _ =>
      match getImages parseRef listResult namespaceArg nameArg with
      | Except.error _ => Except.error EnumerateError.imageListError
      | Except.ok items =>
          Except.ok (items.foldl (fun res img =>
            match parseDigest img.Name with
            | none => res
            | some dgst => res ++ [dgst]) [])

/- ================= Build-graph analysis (modelled from the spec) ========= -/

/-- Modelled from the spec: the node kind discriminator of the graph model
(spec section 3); the implementation of the graph package is not among the
sources, only its test file is. -/
inductive NodeKind where
  | BuildConfigNode
  | ImageStreamNode
  | ImageStreamTagNode
  | ImageStreamImageNode
  | DockerImageNode
deriving DecidableEq

/-- Modelled from the spec: the typed edge kinds of spec section 3. -/
inductive EdgeKind where
  | BuildInputEdge
  | BuildOutputEdge
  | ImageStreamRefEdge
deriving DecidableEq

/-- Modelled from the spec: the domain payload of a node (spec section 3).
A BuildConfigNode carries its ordered input references and its single,
possibly absent, output reference; references are recorded as the unique
names of the referenced nodes (node-name computation from raw objects is the
out-of-scope collaborator's concern).  An ImageStreamNode carries its
optional externally-pullable registry reference and the tags recorded in its
status (as the unique names of the corresponding ImageStreamTagNodes).  An
ImageStreamTagNode records the unique name of its owning ImageStreamNode. -/
inductive NodeData where
  | buildConfig (inputs : List String) (output : Option String)
  | imageStream (registryRef : Option String) (statusTags : List String)
  | imageStreamTag (streamName : String)
  | imageStreamImage
  | dockerImage
deriving DecidableEq

/-- Modelled from the spec: the kind discriminator computed from the node
payload (spec section 9: a tagged union with a kind discriminator). -/
def NodeData.kind : NodeData → NodeKind
  | NodeData.buildConfig _ _ => NodeKind.BuildConfigNode
  | NodeData.imageStream _ _ => NodeKind.ImageStreamNode
  | NodeData.imageStreamTag _ => NodeKind.ImageStreamTagNode
  | NodeData.imageStreamImage => NodeKind.ImageStreamImageNode
  | NodeData.dockerImage => NodeKind.DockerImageNode

/-- Modelled from the spec: a graph node with its globally unique name, its
payload and an explicit parent pointer for the ownership walk of
GetTopLevelContainerNode (spec section 9 sanctions a parent-pointer model). -/
structure Node where
  name : String
  data : NodeData
  owner : Option String
deriving DecidableEq

/-- The kind discriminator of a node. -/
def Node.kind (n : Node) : NodeKind := n.data.kind

/-- Modelled from the spec: a directed typed edge between node names
(spec section 3). -/
structure Edge where
  From : String
  To : String
  Kind : EdgeKind
deriving DecidableEq

/-- Modelled from the spec: the graph holds nodes and edges in insertion
order (spec section 4.1). -/
structure Graph where
  nodes : List Node
  edges : List Edge
deriving DecidableEq

/-- Lookup of a node by its unique name in a node list. -/
def findNode (ns : List Node) (nm : String) : Option Node :=
  ns.find? (fun n => decide (n.name = nm))

/-- Modelled from the spec: Find returns the node with the given unique name
or a not-found signal (spec section 4.1). -/
def Graph.Find (g : Graph) (nm : String) : Option Node := findNode g.nodes nm

/-- Modelled from the spec: OutEdges returns the edges leaving the named
node that carry the given kind, in insertion order (spec section 4.1). -/
def Graph.OutEdges (g : Graph) (nm : String) (k : EdgeKind) : List Edge :=
  g.edges.filter (fun e => decide (e.From = nm ∧ e.Kind = k))

/-- Ownership walk with fuel: follow parent pointers upward until a node has
no owner or the owner is not in the graph. -/
def topLevelContainerAux (ns : List Node) : Nat → Node → Node
  | 0, n => n
  | Nat.succ fuel, n =>
      match n.owner with
      | none => n
      | some o =>
          match findNode ns o with
          | none => n
          | some p => topLevelContainerAux ns fuel p

/-- Modelled from the spec: GetTopLevelContainerNode returns the top-level
owning node of a (possibly nested) node by walking ownership pointers upward
(spec section 4.1). -/
def Graph.GetTopLevelContainerNode (g : Graph) (n : Node) : Node :=
  topLevelContainerAux g.nodes g.nodes.length n

/-- Modelled from the spec: marker keys are a stable taxonomy contract
(spec section 6). -/
def MissingImageStreamErr : String := "MissingImageStreamErr"

def MissingRequiredRegistryErr : String := "MissingRequiredRegistryErr"

def CircularBuildErr : String := "CircularBuildErr"

/-- Modelled from the spec: marker severities; both detectors report
errors (spec section 3). -/
inductive Severity where
  | error
  | warning
deriving DecidableEq

/-- Modelled from the spec: the uniform diagnostic record (spec section 3).
Node and RelatedNodes hold unique node names. -/
structure Marker where
  Key : String
  Node : String
  RelatedNodes : List String
  Severity : Severity
  Message : String
deriving DecidableEq

def missingImageStreamMsg : String :=
  "build output references an image stream tag whose image stream does not exist"

def missingRequiredRegistryMsg : String :=
  "build output image stream has no configured registry to push to"

def circularBuildMsg : String := "build config participates in a build dependency cycle"

/-- The BuildConfigNodes of the graph, in insertion order. -/
def bcNodes (g : Graph) : List Node :=
  g.nodes.filter (fun n => decide (n.kind = NodeKind.BuildConfigNode))

/-- Modelled from the spec: the per-build-config part of the build
input/output projector (spec section 4.2): each declared input reference that
resolves to a present node yields a BuildInputEdge, and the declared output
reference, when present and resolving to a present node, yields a single
BuildOutputEdge; an unresolvable reference or an absent output yields no
edge (spec section 7, resolution ambiguity). -/
def projectBuildConfigEdges (ns : List Node) (bc : Node) : List Edge :=
  match bc.data with
  | NodeData.buildConfig inputs output =>
      inputs.filterMap (fun r =>
        if (findNode ns r).isSome
        then some (Edge.mk bc.name r EdgeKind.BuildInputEdge) else none)
      ++ (match output with
          | none => []
          | some r =>
              if (findNode ns r).isSome
              then [Edge.mk bc.name r EdgeKind.BuildOutputEdge] else [])
  | _ => []

/-- All edges contributed by the build input/output projector for a given
node set; the projector reads only the nodes. -/
def inputOutputBatch (ns : List Node) : List Edge :=
  ((ns.filter (fun n => decide (n.kind = NodeKind.BuildConfigNode))).map
    (projectBuildConfigEdges ns)).flatten

/-- Modelled from the spec: the build input/output projector
(buildedges.AddAllInputOutputEdges); edges are appended without content
deduplication (spec section 3: edges are not deduplicated, detectors must
tolerate duplicates). -/
def AddAllInputOutputEdges (g : Graph) : Graph :=
  Graph.mk g.nodes (g.edges ++ inputOutputBatch g.nodes)

/-- Modelled from the spec: the per-stream part of the image-stream
reference projector (spec section 4.2): for every tag recorded in the
stream status, an ImageStreamRefEdge from the corresponding
ImageStreamTagNode to the ImageStreamNode, provided the tag node is present
in the graph. -/
def projectImageStreamEdges (ns : List Node) (s : Node) : List Edge :=
  match s.data with
  | NodeData.imageStream _ statusTags =>
      statusTags.filterMap (fun t =>
        if (findNode ns t).isSome
        then some (Edge.mk t s.name EdgeKind.ImageStreamRefEdge) else none)
  | _ => []

/-- All edges contributed by the image-stream reference projector for a
given node set. -/
def imageStreamRefBatch (ns : List Node) : List Edge :=
  ((ns.filter (fun n => decide (n.kind = NodeKind.ImageStreamNode))).map
    (projectImageStreamEdges ns)).flatten

/-- Modelled from the spec: the image-stream reference projector
(imageedges.AddAllImageStreamRefEdges). -/
def AddAllImageStreamRefEdges (g : Graph) : Graph :=
  Graph.mk g.nodes (g.edges ++ imageStreamRefBatch g.nodes)

/-- Modelled from the spec: the per-build-config step of the
unpushable-build detector (spec section 4.3).  The single outgoing
BuildOutputEdge (if any) is inspected; a DockerImageNode target is always
pushable; an ImageStreamTagNode target requires its owning ImageStreamNode
to be found in the graph (else MissingImageStreamErr) and to carry a
configured registry reference (else MissingRequiredRegistryErr).  Markers
are anchored at the top-level container of the build config with the
offending tag node as related node; a target that cannot be resolved is
absorbed as no information (spec section 7). -/
def unpushableMarker (g : Graph) (bc : Node) : Option Marker :=
  match (g.OutEdges bc.name EdgeKind.BuildOutputEdge).head? with
  | none => none
  | some e =>
      match g.Find e.To with
      | none => none
      | some tgt =>
          match tgt.data with
          | NodeData.imageStreamTag streamName =>
              match g.Find streamName with
              | none =>
                  some (Marker.mk MissingImageStreamErr
                    (g.GetTopLevelContainerNode bc).name [tgt.name]
                    Severity.error missingImageStreamMsg)
              | some s =>
                  match s.data with
                  | NodeData.imageStream registryRef _ =>
                      match registryRef with
                      | none =>
                          some (Marker.mk MissingRequiredRegistryErr
                            (g.GetTopLevelContainerNode bc).name [tgt.name]
                            Severity.error missingRequiredRegistryMsg)
                      | some _ => none
                  | _ => none
          | _ => none

/-- The detector entry for one graph node: only BuildConfigNodes are
inspected. -/
def unpushableEntry (g : Graph) (n : Node) : Option Marker :=
  if n.kind = NodeKind.BuildConfigNode then unpushableMarker g n else none

/-- Modelled from the spec: FindUnpushableBuildConfigs (spec section 4.3),
one marker at most per offending BuildConfigNode, in node insertion
order. -/
def FindUnpushableBuildConfigs (g : Graph) : List Marker :=
  g.nodes.filterMap (unpushableEntry g)

/-- Modelled from the spec: one hop of the derived build-to-build graph
(spec section 4.4): a depends-hop from build config a to build config b
exists when some BuildOutputEdge of a and some BuildInputEdge of b meet in
the same image node. -/
def buildDependsOn (g : Graph) (a b : String) : Bool :=
  g.edges.any (fun eo =>
    decide (eo.Kind = EdgeKind.BuildOutputEdge ∧ eo.From = a) &&
    g.edges.any (fun ei =>
      decide (ei.Kind = EdgeKind.BuildInputEdge ∧ ei.From = b ∧ ei.To = eo.To)))

/-- The build configs reachable in exactly one derived hop from any member
of the given frontier. -/
def stepFrontier (g : Graph) (seen : List String) : List String :=
  ((bcNodes g).filter (fun n =>
    seen.any (fun a => buildDependsOn g a n.name))).map Node.name

/-- Fuelled reachability closure over the derived build-to-build graph:
every round adds the not-yet-seen one-hop successors of the current set. -/
def reachSet (g : Graph) : Nat → List String → List String
  | 0, s => s
  | Nat.succ fuel, s =>
      reachSet g fuel (s ++ (stepFrontier g s).filter (fun x => decide (x ∉ s)))

/-- Modelled from the spec: cycle participation (spec section 4.4): a build
config is in a cycle when it can reach itself through one or more derived
hops; the one general reachability check subsumes the length-one self-loop
with no special casing. -/
def inCycle (g : Graph) (a : String) : Bool :=
  (reachSet g g.nodes.length (stepFrontier g [a])).contains a

/-- Modelled from the spec: FindCircularBuilds (spec section 4.4): one
marker per cycle-participating BuildConfigNode, independent of how many
other members share its cycle. -/
def FindCircularBuilds (g : Graph) : List Marker :=
  ((bcNodes g).filter (fun n => inCycle g n.name)).map
    (fun n => Marker.mk CircularBuildErr n.name [] Severity.error circularBuildMsg)

/- ================= Concrete instance graphs ============================== -/

/-- Build config a: inputs image y, outputs image x (spec section 8 circular
scenario). -/
def circA : Node :=
  Node.mk "BuildConfig|/a"
    (NodeData.buildConfig ["DockerImage|y"] (some "DockerImage|x")) none

/-- Build config b: inputs image x, outputs image y. -/
def circB : Node :=
  Node.mk "BuildConfig|/b"
    (NodeData.buildConfig ["DockerImage|x"] (some "DockerImage|y")) none

def circX : Node := Node.mk "DockerImage|x" NodeData.dockerImage none

def circY : Node := Node.mk "DockerImage|y" NodeData.dockerImage none

/-- The projected two-build cycle graph: a outputs x, b inputs x, b outputs
y, a inputs y. -/
def gCircular : Graph :=
  AddAllInputOutputEdges (Graph.mk [circA, circB, circX, circY] [])

/-- The same graph with the input edge from image y into build config a
removed. -/
def gCircularNot : Graph :=
  Graph.mk gCircular.nodes
    (gCircular.edges.filter (fun e =>
      decide (¬ (e.From = "BuildConfig|/a" ∧ e.To = "DockerImage|y" ∧
        e.Kind = EdgeKind.BuildInputEdge))))

/-- Witness build config whose output tag has no backing image stream. -/
def wBC : Node :=
  Node.mk "BuildConfig|/ruby" (NodeData.buildConfig [] (some "ImageStreamTag|/ruby:latest")) none

def wIST : Node :=
  Node.mk "ImageStreamTag|/ruby:latest" (NodeData.imageStreamTag "ImageStream|/ruby") none

/-- Witness graph for the missing-stream case: the owning image stream node
is absent. -/
def wG1 : Graph := AddAllInputOutputEdges (Graph.mk [wBC, wIST] [])

/-- Witness image stream with no configured registry reference. -/
def wIS : Node :=
  Node.mk "ImageStream|/ruby" (NodeData.imageStream none ["ImageStreamTag|/ruby:latest"]) none

/-- Witness graph for the unconfigured-registry case. -/
def wG2 : Graph :=
  AddAllImageStreamRefEdges (AddAllInputOutputEdges (Graph.mk [wBC, wIST, wIS] []))

/-- Witness build config whose declared output equals its own declared
input. -/
def wSelfBC : Node :=
  Node.mk "BuildConfig|/self" (NodeData.buildConfig ["DockerImage|s"] (some "DockerImage|s")) none

def wSelfImg : Node := Node.mk "DockerImage|s" NodeData.dockerImage none

/-- Witness graph (before projection) for the self-loop cycle. -/
def wGSelf : Graph := Graph.mk [wSelfBC, wSelfImg] []

/-- Witness build config with no declared output. -/
def wNoOutBC : Node := Node.mk "BuildConfig|/noout" (NodeData.buildConfig [] none) none

/-- Witness graph (before projection) for the no-declared-output case. -/
def wGNoOut : Graph := Graph.mk [wNoOutBC] []

/- ================= Helper lemmas ========================================= -/

lemma tlc_of_owner_none (g : Graph) (n : Node) (h : n.owner = none) :
    g.GetTopLevelContainerNode n = n := by
  unfold Graph.GetTopLevelContainerNode
  cases g.nodes.length with
  | zero => rfl
  | succ k => unfold topLevelContainerAux; rw [h]

lemma unpushableMarker_some (g : Graph) (n : Node) (m : Marker)
    (h : unpushableMarker g n = some m) :
    m.Node = (g.GetTopLevelContainerNode n).name ∧
      (m.Key = MissingImageStreamErr ∨ m.Key = MissingRequiredRegistryErr) := by
  unfold unpushableMarker at h
  cases hh : (g.OutEdges n.name EdgeKind.BuildOutputEdge).head? with
  | none => simp only [hh] at h; exact absurd h (by simp)
  | some e =>
      simp only [hh] at h
      cases hf : g.Find e.To with
      | none => simp only [hf] at h; exact absurd h (by simp)
      | some tgt =>
          simp only [hf] at h
          cases hd : tgt.data with
          | buildConfig inputs output => simp only [hd] at h; exact absurd h (by simp)
          | imageStream registryRef statusTags => simp only [hd] at h; exact absurd h (by simp)
          | imageStreamImage => simp only [hd] at h; exact absurd h (by simp)
          | dockerImage => simp only [hd] at h; exact absurd h (by simp)
          | imageStreamTag streamName =>
              simp only [hd] at h
              cases hs : g.Find streamName with
              | none =>
                  simp only [hs] at h
                  obtain rfl := Option.some.inj h
                  exact ⟨rfl, Or.inl rfl⟩
              | some s =>
                  simp only [hs] at h
                  cases hsd : s.data with
                  | buildConfig inputs output => simp only [hsd] at h; exact absurd h (by simp)
                  | imageStreamTag sn => simp only [hsd] at h; exact absurd h (by simp)
                  | imageStreamImage => simp only [hsd] at h; exact absurd h (by simp)
                  | dockerImage => simp only [hsd] at h; exact absurd h (by simp)
                  | imageStream registryRef statusTags =>
                      simp only [hsd] at h
                      cases hr : registryRef with
                      | some v => simp only [hr] at h; exact absurd h (by simp)
                      | none =>
                          simp only [hr] at h
                          obtain rfl := Option.some.inj h
                          exact ⟨rfl, Or.inr rfl⟩

lemma unpushableEntry_some (g : Graph) (n : Node) (m : Marker)
    (h : unpushableEntry g n = some m) :
    n.kind = NodeKind.BuildConfigNode ∧
      m.Node = (g.GetTopLevelContainerNode n).name ∧
      (m.Key = MissingImageStreamErr ∨ m.Key = MissingRequiredRegistryErr) := by
  unfold unpushableEntry at h
  split at h
  · next hk => exact ⟨hk, unpushableMarker_some g n m h⟩
  · exact absurd h (by simp)

lemma eq_of_name_eq {ns : List Node}
    (h : ns.Pairwise (fun a b => a.name ≠ b.name)) {x y : Node}
    (hx : x ∈ ns) (hy : y ∈ ns) (hname : x.name = y.name) : x = y := by
  induction ns with
  | nil => exact absurd hx (List.not_mem_nil x)
  | cons n t ih =>
      rw [List.pairwise_cons] at h
      obtain ⟨hn, hpt⟩ := h
      rcases List.mem_cons.mp hx with hx1 | hx2 <;>
        rcases List.mem_cons.mp hy with hy1 | hy2
      · rw [hx1, hy1]
      · exact absurd hname (hx1 ▸ hn y hy2)
      · exact absurd hname.symm (hy1 ▸ hn x hx2)
      · exact ih hpt hx2 hy2

lemma filterMap_anchor_nil {f : Node → Option Marker} {anchor : String} :
    ∀ ns : List Node, (∀ x ∈ ns, ∀ m, f x = some m → m.Node ≠ anchor) →
      (ns.filterMap f).filter (fun m => decide (m.Node = anchor)) = [] := by
  intro ns h
  rw [List.filter_eq_nil_iff]
  intro m hm
  obtain ⟨x, hx, hfx⟩ := List.mem_filterMap.mp hm
  simp only [decide_eq_true_eq]
  exact h x hx m hfx

lemma filterMap_anchor_unique {f : Node → Option Marker} {anchor : String} {m0 : Marker} :
    ∀ ns : List Node, ns.Pairwise (fun a b => a.name ≠ b.name) →
      ∀ bc, bc ∈ ns → f bc = some m0 → m0.Node = anchor →
      (∀ x ∈ ns, x.name ≠ bc.name → ∀ m, f x = some m → m.Node ≠ anchor) →
      (ns.filterMap f).filter (fun m => decide (m.Node = anchor)) = [m0] := by
  intro ns
  induction ns with
  | nil => intro _ bc h; exact absurd h (List.not_mem_nil bc)
  | cons n t ih =>
      intro hpw bc hbc hf hm0 hother
      rw [List.pairwise_cons] at hpw
      obtain ⟨hn, hpt⟩ := hpw
      rcases List.mem_cons.mp hbc with heq | hmem
      · subst heq
        rw [List.filterMap_cons_some hf]
        rw [List.filter_cons_of_pos (by simp [hm0])]
        rw [filterMap_anchor_nil t
          (fun x hx m hm => hother x (List.mem_cons_of_mem _ hx) (Ne.symm (hn x hx)) m hm)]
      · have hne : n.name ≠ bc.name := hn bc hmem
        have hrest := ih hpt bc hmem hf hm0
          (fun x hx hxne m hm => hother x (List.mem_cons_of_mem _ hx) hxne m hm)
        cases hfn : f n with
        | none => rw [List.filterMap_cons_none hfn]; exact hrest
        | some m =>
            rw [List.filterMap_cons_some hfn]
            rw [List.filter_cons_of_neg
              (by simp; exact hother n (List.mem_cons_self n t) hne m hfn)]
            exact hrest

/- ================= Claim theorems: unpushable detector =================== -/

/-- C1: in every well-formed graph (unique node names, build configs being
top-level nodes) containing a BuildConfigNode whose single BuildOutputEdge
points to an ImageStreamTagNode whose owning ImageStreamNode is absent from
the graph, FindUnpushableBuildConfigs returns exactly one marker for that
build config, with key MissingImageStreamErr, anchored at the top-level
container of the BuildConfigNode, and with the unresolved ImageStreamTagNode
as related node. -/
theorem FindUnpushableBuildConfigs_missing_stream
    (g : Graph) (bc ist : Node) (e : Edge) (inputs : List String)
    (output : Option String) (streamName : String)
    (hnames : g.nodes.Pairwise (fun a b => a.name ≠ b.name))
    (howner : ∀ n ∈ g.nodes, n.kind = NodeKind.BuildConfigNode → n.owner = none)
    (hbc : bc ∈ g.nodes)
    (hbcd : bc.data = NodeData.buildConfig inputs output)
    (hout : g.OutEdges bc.name EdgeKind.BuildOutputEdge = [e])
    (hist : g.Find e.To = some ist)
    (histd : ist.data = NodeData.imageStreamTag streamName)
    (habs : g.Find streamName = none) :
    (FindUnpushableBuildConfigs g).filter
        (fun m => decide (m.Node = (g.GetTopLevelContainerNode bc).name))
      = [Marker.mk MissingImageStreamErr bc.name [ist.name]
          Severity.error missingImageStreamMsg] := by
  have hkind : bc.kind = NodeKind.BuildConfigNode := by
    rw [Node.kind, hbcd]; rfl
  have htlc : g.GetTopLevelContainerNode bc = bc :=
    tlc_of_owner_none g bc (howner bc hbc hkind)
  have hm0 : unpushableEntry g bc
      = some (Marker.mk MissingImageStreamErr bc.name [ist.name]
          Severity.error missingImageStreamMsg) := by
    unfold unpushableEntry
    rw [if_pos hkind]
    unfold unpushableMarker
    simp only [hout, List.head?_cons, hist, histd, habs, htlc]
  unfold FindUnpushableBuildConfigs
  apply filterMap_anchor_unique g.nodes hnames bc hbc hm0 (by rw [htlc])
  intro x hx hne m hm
  obtain ⟨hxk, hxa, _⟩ := unpushableEntry_some g x m hm
  rw [hxa, tlc_of_owner_none g x (howner x hx hxk), htlc]
  exact hne

/-- C2: in every well-formed graph containing a BuildConfigNode whose single
BuildOutputEdge points to an ImageStreamTagNode whose owning ImageStreamNode
exists but has no externally-reachable registry reference configured,
FindUnpushableBuildConfigs returns exactly one marker for that build config,
with key MissingRequiredRegistryErr, anchored at the top-level container of
the BuildConfigNode, and with the offending ImageStreamTagNode as its first
(and only) related node. -/
theorem FindUnpushableBuildConfigs_missing_registry
    (g : Graph) (bc ist s : Node) (e : Edge) (inputs : List String)
    (output : Option String) (streamName : String) (statusTags : List String)
    (hnames : g.nodes.Pairwise (fun a b => a.name ≠ b.name))
    (howner : ∀ n ∈ g.nodes, n.kind = NodeKind.BuildConfigNode → n.owner = none)
    (hbc : bc ∈ g.nodes)
    (hbcd : bc.data = NodeData.buildConfig inputs output)
    (hout : g.OutEdges bc.name EdgeKind.BuildOutputEdge = [e])
    (hist : g.Find e.To = some ist)
    (histd : ist.data = NodeData.imageStreamTag streamName)
    (hfound : g.Find streamName = some s)
    (hsreg : s.data = NodeData.imageStream none statusTags) :
    (FindUnpushableBuildConfigs g).filter
        (fun m => decide (m.Node = (g.GetTopLevelContainerNode bc).name))
      = [Marker.mk MissingRequiredRegistryErr bc.name [ist.name]
          Severity.error missingRequiredRegistryMsg] := by
  have hkind : bc.kind = NodeKind.BuildConfigNode := by
    rw [Node.kind, hbcd]; rfl
  have htlc : g.GetTopLevelContainerNode bc = bc :=
    tlc_of_owner_none g bc (howner bc hbc hkind)
  have hm0 : unpushableEntry g bc
      = some (Marker.mk MissingRequiredRegistryErr bc.name [ist.name]
          Severity.error missingRequiredRegistryMsg) := by
    unfold unpushableEntry
    rw [if_pos hkind]
    unfold unpushableMarker
    simp only [hout, List.head?_cons, hist, histd, hfound, hsreg, htlc]
  unfold FindUnpushableBuildConfigs
  apply filterMap_anchor_unique g.nodes hnames bc hbc hm0 (by rw [htlc])
  intro x hx hne m hm
  obtain ⟨hxk, hxa, _⟩ := unpushableEntry_some g x m hm
  rw [hxa, tlc_of_owner_none g x (howner x hx hxk), htlc]
  exact hne

/-- Witness for C1 at the concrete graph wG1. -/
theorem FindUnpushableBuildConfigs_missing_stream_witness :
    (FindUnpushableBuildConfigs wG1).filter
        (fun m => decide (m.Node = (wG1.GetTopLevelContainerNode wBC).name))
      = [Marker.mk MissingImageStreamErr wBC.name [wIST.name]
          Severity.error missingImageStreamMsg] :=
  FindUnpushableBuildConfigs_missing_stream wG1 wBC wIST
    (Edge.mk "BuildConfig|/ruby" "ImageStreamTag|/ruby:latest" EdgeKind.BuildOutputEdge)
    [] (some "ImageStreamTag|/ruby:latest") "ImageStream|/ruby"
    (by decide) (by decide) (by decide) (by decide)
    (by decide) (by decide) (by decide) (by decide)

/-- Witness for C2 at the concrete graph wG2. -/
theorem FindUnpushableBuildConfigs_missing_registry_witness :
    (FindUnpushableBuildConfigs wG2).filter
        (fun m => decide (m.Node = (wG2.GetTopLevelContainerNode wBC).name))
      = [Marker.mk MissingRequiredRegistryErr wBC.name [wIST.name]
          Severity.error missingRequiredRegistryMsg] :=
  FindUnpushableBuildConfigs_missing_registry wG2 wBC wIST wIS
    (Edge.mk "BuildConfig|/ruby" "ImageStreamTag|/ruby:latest" EdgeKind.BuildOutputEdge)
    [] (some "ImageStreamTag|/ruby:latest") "ImageStream|/ruby"
    ["ImageStreamTag|/ruby:latest"]
    (by decide) (by decide) (by decide) (by decide)
    (by decide) (by decide) (by decide) (by decide) (by decide)

/- ================= Claim theorems: circular detector ===================== -/

/-- C3: on the projected graph where build config a outputs image x and
inputs image y while build config b inputs image x and outputs image y,
FindCircularBuilds returns one marker per cycle-participating
BuildConfigNode, i.e. markers for both a and b; and on the same graph with
the y-into-a input edge removed it returns no markers. -/
theorem FindCircularBuilds_two_cycle :
    FindCircularBuilds gCircular
      = [Marker.mk CircularBuildErr "BuildConfig|/a" [] Severity.error circularBuildMsg,
         Marker.mk CircularBuildErr "BuildConfig|/b" [] Severity.error circularBuildMsg] ∧
    FindCircularBuilds gCircularNot = [] := by
  constructor
  · decide
  · decide

lemma mem_reachSet_of_mem (g : Graph) (x : String) :
    ∀ (fuel : Nat) (s : List String), x ∈ s → x ∈ reachSet g fuel s := by
  intro fuel
  induction fuel with
  | zero => intro s h; exact h
  | succ k ih => intro s h; exact ih _ (List.mem_append_left _ h)

/-- C4: in every graph containing a BuildConfigNode whose declared output
image equals one of its own declared inputs and resolves to a node present
in the graph, running the build input/output projector and then the general
cycle detector FindCircularBuilds (which has no special case for length-one
cycles) flags that build config with a CircularBuildErr marker. -/
theorem FindCircularBuilds_self_loop
    (g : Graph) (bc : Node) (inputs : List String) (r : String)
    (hbc : bc ∈ g.nodes)
    (hbcd : bc.data = NodeData.buildConfig inputs (some r))
    (hin : r ∈ inputs)
    (hres : (findNode g.nodes r).isSome = true) :
    ∃ m ∈ FindCircularBuilds (AddAllInputOutputEdges g),
      m.Node = bc.name ∧ m.Key = CircularBuildErr := by
  have hkind : bc.kind = NodeKind.BuildConfigNode := by
    rw [Node.kind, hbcd]; rfl
  have hnodes : (AddAllInputOutputEdges g).nodes = g.nodes := rfl
  have hbcm : bc ∈ bcNodes (AddAllInputOutputEdges g) := by
    unfold bcNodes
    rw [hnodes]
    exact List.mem_filter.mpr ⟨hbc, by simp [hkind]⟩
  have hout : Edge.mk bc.name r EdgeKind.BuildOutputEdge
      ∈ (AddAllInputOutputEdges g).edges := by
    apply List.mem_append_right
    unfold inputOutputBatch
    apply List.mem_flatten.mpr
    refine ⟨projectBuildConfigEdges g.nodes bc, List.mem_map_of_mem _ ?_, ?_⟩
    · exact List.mem_filter.mpr ⟨hbc, by simp [hkind]⟩
    · unfold projectBuildConfigEdges
      rw [hbcd]
      apply List.mem_append_right
      simp [hres]
  have hinp : Edge.mk bc.name r EdgeKind.BuildInputEdge
      ∈ (AddAllInputOutputEdges g).edges := by
    apply List.mem_append_right
    unfold inputOutputBatch
    apply List.mem_flatten.mpr
    refine ⟨projectBuildConfigEdges g.nodes bc, List.mem_map_of_mem _ ?_, ?_⟩
    · exact List.mem_filter.mpr ⟨hbc, by simp [hkind]⟩
    · unfold projectBuildConfigEdges
      rw [hbcd]
      apply List.mem_append_left
      exact List.mem_filterMap.mpr ⟨r, hin, by simp [hres]⟩
  have hdep : buildDependsOn (AddAllInputOutputEdges g) bc.name bc.name = true := by
    apply List.any_eq_true.mpr
    refine ⟨Edge.mk bc.name r EdgeKind.BuildOutputEdge, hout, ?_⟩
    rw [Bool.and_eq_true]
    constructor
    · simp
    · exact List.any_eq_true.mpr
        ⟨Edge.mk bc.name r EdgeKind.BuildInputEdge, hinp, by simp⟩
  have hfront : bc.name ∈ stepFrontier (AddAllInputOutputEdges g) [bc.name] := by
    unfold stepFrontier
    apply List.mem_map_of_mem
    exact List.mem_filter.mpr ⟨hbcm, by simp [hdep]⟩
  have hcyc : inCycle (AddAllInputOutputEdges g) bc.name = true := by
    unfold inCycle
    exact List.elem_eq_true_of_mem (mem_reachSet_of_mem _ _ _ _ hfront)
  refine ⟨Marker.mk CircularBuildErr bc.name [] Severity.error circularBuildMsg, ?_, rfl, rfl⟩
  unfold FindCircularBuilds
  apply List.mem_map_of_mem
  exact List.mem_filter.mpr ⟨hbcm, by simp [hcyc]⟩

/-- Witness for C4 at the concrete graph wGSelf. -/
theorem FindCircularBuilds_self_loop_witness :
    ∃ m ∈ FindCircularBuilds (AddAllInputOutputEdges wGSelf),
      m.Node = wSelfBC.name ∧ m.Key = CircularBuildErr :=
  FindCircularBuilds_self_loop wGSelf wSelfBC ["DockerImage|s"] "DockerImage|s"
    (by decide) (by decide) (by decide) (by decide)

/- ================= Claim theorems: projector safety ====================== -/

lemma mem_inputOutputBatch {ns : List Node} {e : Edge}
    (h : e ∈ inputOutputBatch ns) :
    ∃ x ∈ ns, x.kind = NodeKind.BuildConfigNode ∧ e.From = x.name ∧
      (e.Kind = EdgeKind.BuildInputEdge ∨
        (e.Kind = EdgeKind.BuildOutputEdge ∧
          ∃ inputs r, x.data = NodeData.buildConfig inputs (some r))) := by
  unfold inputOutputBatch at h
  obtain ⟨l, hl, hel⟩ := List.mem_flatten.mp h
  obtain ⟨x, hx, hfx⟩ := List.mem_map.mp hl
  obtain ⟨hxns, hxk⟩ := List.mem_filter.mp hx
  refine ⟨x, hxns, by simpa using hxk, ?_⟩
  subst hfx
  unfold projectBuildConfigEdges at hel
  cases hd : x.data with
  | imageStream a b => simp only [hd] at hel; exact absurd hel (List.not_mem_nil e)
  | imageStreamTag a => simp only [hd] at hel; exact absurd hel (List.not_mem_nil e)
  | imageStreamImage => simp only [hd] at hel; exact absurd hel (List.not_mem_nil e)
  | dockerImage => simp only [hd] at hel; exact absurd hel (List.not_mem_nil e)
  | buildConfig inputs output =>
      simp only [hd] at hel
      rcases List.mem_append.mp hel with hinp | hout
      · obtain ⟨r, _, hr⟩ := List.mem_filterMap.mp hinp
        by_cases hn : (findNode ns r).isSome = true
        · rw [if_pos hn] at hr
          obtain rfl := Option.some.inj hr
          exact ⟨rfl, Or.inl rfl⟩
        · rw [if_neg hn] at hr
          exact absurd hr (by simp)
      · cases ho : output with
        | none => simp only [ho] at hout; exact absurd hout (List.not_mem_nil e)
        | some r =>
            simp only [ho] at hout
            by_cases hn : (findNode ns r).isSome = true
            · rw [if_pos hn] at hout
              obtain rfl := List.mem_singleton.mp hout
              exact ⟨rfl, Or.inr ⟨rfl, inputs, r, by simp [hd, ho]⟩⟩
            · rw [if_neg hn] at hout
              exact absurd hout (List.not_mem_nil e)

/-- C6: for every BuildConfigNode with no declared output (in a well-formed
graph carrying no pre-existing BuildOutputEdge for it), the build
input/output projector (a total function: it cannot raise an error or
panic) creates no BuildOutputEdge for that config, and
FindUnpushableBuildConfigs on the projected graph emits no marker for that
build config. -/
theorem projector_no_output_no_marker
    (g : Graph) (bc : Node) (inputs : List String)
    (hnames : g.nodes.Pairwise (fun a b => a.name ≠ b.name))
    (howner : ∀ n ∈ g.nodes, n.kind = NodeKind.BuildConfigNode → n.owner = none)
    (hbc : bc ∈ g.nodes)
    (hbcd : bc.data = NodeData.buildConfig inputs none)
    (hnoe : ∀ e ∈ g.edges, ¬ (e.From = bc.name ∧ e.Kind = EdgeKind.BuildOutputEdge)) :
    (AddAllInputOutputEdges g).OutEdges bc.name EdgeKind.BuildOutputEdge = [] ∧
    (FindUnpushableBuildConfigs (AddAllInputOutputEdges g)).filter
        (fun m => decide (m.Node = bc.name)) = [] := by
  have hkind : bc.kind = NodeKind.BuildConfigNode := by
    rw [Node.kind, hbcd]; rfl
  have hempty : (AddAllInputOutputEdges g).OutEdges bc.name EdgeKind.BuildOutputEdge = [] := by
    unfold Graph.OutEdges AddAllInputOutputEdges
    rw [List.filter_append]
    rw [List.filter_eq_nil_iff.mpr (fun e he => by simpa using hnoe e he)]
    rw [List.filter_eq_nil_iff.mpr ?h]
    case h =>
      intro e he
      simp only [decide_eq_true_eq, not_and]
      intro hfrom hkindeq
      obtain ⟨x, hxns, hxk, hername, hkinds⟩ := mem_inputOutputBatch he
      have hxbc : x = bc := eq_of_name_eq hnames hxns hbc (hername ▸ hfrom)
      rcases hkinds with hk1 | ⟨_, inputs2, r, hx2⟩
      · rw [hkindeq] at hk1; exact EdgeKind.noConfusion hk1
      · rw [hxbc, hbcd] at hx2
        exact Option.noConfusion (NodeData.buildConfig.inj hx2).2
    rfl
  refine ⟨hempty, ?_⟩
  unfold FindUnpushableBuildConfigs
  apply filterMap_anchor_nil
  intro x hx m hm
  obtain ⟨hxk, hxa, _⟩ := unpushableEntry_some _ x m hm
  have hx0 : x ∈ g.nodes := hx
  rw [hxa, tlc_of_owner_none _ x (howner x hx0 hxk)]
  intro hcontra
  have hxbc : x = bc := eq_of_name_eq hnames hx0 hbc hcontra
  subst hxbc
  unfold unpushableEntry at hm
  rw [if_pos hxk] at hm
  unfold unpushableMarker at hm
  rw [hempty] at hm
  exact absurd hm (by simp)

/-- Witness for C6 at the concrete graph wGNoOut. -/
theorem projector_no_output_no_marker_witness :
    (AddAllInputOutputEdges wGNoOut).OutEdges wNoOutBC.name EdgeKind.BuildOutputEdge = [] ∧
    (FindUnpushableBuildConfigs (AddAllInputOutputEdges wGNoOut)).filter
        (fun m => decide (m.Node = wNoOutBC.name)) = [] :=
  projector_no_output_no_marker wGNoOut wNoOutBC []
    (by decide) (by decide) (by decide) (by decide) (by decide)

/- ================= Claim theorems: detector totality ===================== -/

/-- C8: both detectors are total functions on graphs (they always terminate
and return a, possibly empty, list of markers and have no error outcome in
their result type); every emitted marker carries one of the stable keys;
and a build config whose output-edge target fails to resolve to a node
contributes no marker, instead of aborting the analysis. -/
theorem detectors_total (g : Graph) :
    (∀ m ∈ FindUnpushableBuildConfigs g,
        m.Key = MissingImageStreamErr ∨ m.Key = MissingRequiredRegistryErr) ∧
    (∀ m ∈ FindCircularBuilds g, m.Key = CircularBuildErr) ∧
    (∀ n e, (g.OutEdges n.name EdgeKind.BuildOutputEdge).head? = some e →
      g.Find e.To = none → unpushableMarker g n = none) := by
  refine ⟨?_, ?_, ?_⟩
  · intro m hm
    obtain ⟨x, _, hfx⟩ := List.mem_filterMap.mp hm
    exact (unpushableEntry_some g x m hfx).2.2
  · intro m hm
    obtain ⟨x, _, hfx⟩ := List.mem_map.mp hm
    rw [← hfx]
  · intro n e h1 h2
    unfold unpushableMarker
    simp only [h1, h2]

/-- Witness for C8 at the concrete graph wG1 (the quantified graph argument
instantiated). -/
theorem detectors_total_witness :
    (∀ m ∈ FindUnpushableBuildConfigs wG1,
        m.Key = MissingImageStreamErr ∨ m.Key = MissingRequiredRegistryErr) ∧
    (∀ m ∈ FindCircularBuilds wG1, m.Key = CircularBuildErr) ∧
    (∀ n e, (wG1.OutEdges n.name EdgeKind.BuildOutputEdge).head? = some e →
      wG1.Find e.To = none → unpushableMarker wG1 n = none) :=
  detectors_total wG1

/- ================= Claim theorems: projector idempotence ================= -/

lemma mem_imageStreamRefBatch {ns : List Node} {e : Edge}
    (h : e ∈ imageStreamRefBatch ns) : e.Kind = EdgeKind.ImageStreamRefEdge := by
  unfold imageStreamRefBatch at h
  obtain ⟨l, hl, hel⟩ := List.mem_flatten.mp h
  obtain ⟨x, hx, hfx⟩ := List.mem_map.mp hl
  subst hfx
  unfold projectImageStreamEdges at hel
  cases hd : x.data with
  | buildConfig a b => simp only [hd] at hel; exact absurd hel (List.not_mem_nil e)
  | imageStreamTag a => simp only [hd] at hel; exact absurd hel (List.not_mem_nil e)
  | imageStreamImage => simp only [hd] at hel; exact absurd hel (List.not_mem_nil e)
  | dockerImage => simp only [hd] at hel; exact absurd hel (List.not_mem_nil e)
  | imageStream rr tags =>
      simp only [hd] at hel
      obtain ⟨t, _, ht⟩ := List.mem_filterMap.mp hel
      by_cases hn : (findNode ns t).isSome = true
      · rw [if_pos hn] at ht
        obtain rfl := Option.some.inj ht
        rfl
      · rw [if_neg hn] at ht
        exact absurd ht (by simp)

lemma head?_append_idem {α} (a b : List α) : ((a ++ b) ++ b).head? = (a ++ b).head? := by
  cases a with
  | cons x t => rfl
  | nil =>
      cases b with
      | nil => rfl
      | cons y s => rfl

lemma any_eq_of_mem_iff {α} {l1 l2 : List α} (hm : ∀ x, x ∈ l2 ↔ x ∈ l1)
    (p : α → Bool) : l2.any p = l1.any p := by
  rw [Bool.eq_iff_iff]
  simp only [List.any_eq_true]
  constructor
  · rintro ⟨x, hx, hp⟩; exact ⟨x, (hm x).mp hx, hp⟩
  · rintro ⟨x, hx, hp⟩; exact ⟨x, (hm x).mpr hx, hp⟩

lemma buildDependsOn_congr (g1 g2 : Graph)
    (hm : ∀ x, x ∈ g2.edges ↔ x ∈ g1.edges) (a b : String) :
    buildDependsOn g2 a b = buildDependsOn g1 a b := by
  unfold buildDependsOn
  have hinner : ∀ eo : Edge,
      (decide (eo.Kind = EdgeKind.BuildOutputEdge ∧ eo.From = a) &&
        g2.edges.any (fun ei =>
          decide (ei.Kind = EdgeKind.BuildInputEdge ∧ ei.From = b ∧ ei.To = eo.To)))
      = (decide (eo.Kind = EdgeKind.BuildOutputEdge ∧ eo.From = a) &&
        g1.edges.any (fun ei =>
          decide (ei.Kind = EdgeKind.BuildInputEdge ∧ ei.From = b ∧ ei.To = eo.To))) := by
    intro eo
    rw [any_eq_of_mem_iff hm]
  rw [funext hinner]
  exact any_eq_of_mem_iff hm _

lemma stepFrontier_congr (g1 g2 : Graph) (hn : g2.nodes = g1.nodes)
    (hm : ∀ x, x ∈ g2.edges ↔ x ∈ g1.edges) (s : List String) :
    stepFrontier g2 s = stepFrontier g1 s := by
  have hfun : buildDependsOn g2 = buildDependsOn g1 :=
    funext (fun a => funext (fun b => buildDependsOn_congr g1 g2 hm a b))
  unfold stepFrontier bcNodes
  rw [hn, hfun]

lemma reachSet_congr (g1 g2 : Graph) (hn : g2.nodes = g1.nodes)
    (hm : ∀ x, x ∈ g2.edges ↔ x ∈ g1.edges) :
    ∀ (fuel : Nat) (s : List String), reachSet g2 fuel s = reachSet g1 fuel s := by
  intro fuel
  induction fuel with
  | zero => intro s; rfl
  | succ k ih =>
      intro s
      unfold reachSet
      rw [stepFrontier_congr g1 g2 hn hm s, ih]

lemma inCycle_congr (g1 g2 : Graph) (hn : g2.nodes = g1.nodes)
    (hm : ∀ x, x ∈ g2.edges ↔ x ∈ g1.edges) (a : String) :
    inCycle g2 a = inCycle g1 a := by
  unfold inCycle
  rw [reachSet_congr g1 g2 hn hm, stepFrontier_congr g1 g2 hn hm, hn]

lemma unpushableMarker_congr (g1 g2 : Graph) (hn : g2.nodes = g1.nodes)
    (hh : ∀ nm, (g2.OutEdges nm EdgeKind.BuildOutputEdge).head?
      = (g1.OutEdges nm EdgeKind.BuildOutputEdge).head?) (n : Node) :
    unpushableMarker g2 n = unpushableMarker g1 n := by
  unfold unpushableMarker Graph.Find Graph.GetTopLevelContainerNode
  rw [hh n.name, hn]

/-- C7: running the two edge projectors a second time on an already
projected graph leaves the marker output of both detectors unchanged:
the duplicated edges are tolerated by both detectors. -/
theorem projectors_idempotent_markers (g : Graph) :
    FindUnpushableBuildConfigs (AddAllImageStreamRefEdges (AddAllInputOutputEdges
        (AddAllImageStreamRefEdges (AddAllInputOutputEdges g))))
      = FindUnpushableBuildConfigs (AddAllImageStreamRefEdges (AddAllInputOutputEdges g)) ∧
    FindCircularBuilds (AddAllImageStreamRefEdges (AddAllInputOutputEdges
        (AddAllImageStreamRefEdges (AddAllInputOutputEdges g))))
      = FindCircularBuilds (AddAllImageStreamRefEdges (AddAllInputOutputEdges g)) := by
  have hm : ∀ x, x ∈ (AddAllImageStreamRefEdges (AddAllInputOutputEdges
        (AddAllImageStreamRefEdges (AddAllInputOutputEdges g)))).edges
      ↔ x ∈ (AddAllImageStreamRefEdges (AddAllInputOutputEdges g)).edges := by
    intro x
    show x ∈ (((g.edges ++ inputOutputBatch g.nodes) ++ imageStreamRefBatch g.nodes)
          ++ inputOutputBatch g.nodes) ++ imageStreamRefBatch g.nodes
      ↔ x ∈ (g.edges ++ inputOutputBatch g.nodes) ++ imageStreamRefBatch g.nodes
    simp only [List.mem_append]
    tauto
  have hB2 : ∀ nm : String,
      List.filter (fun e => decide (e.From = nm ∧ e.Kind = EdgeKind.BuildOutputEdge))
        (imageStreamRefBatch g.nodes) = [] := by
    intro nm
    rw [List.filter_eq_nil_iff]
    intro e he
    have hk := mem_imageStreamRefBatch he
    simp [hk]
  have hh : ∀ nm, ((AddAllImageStreamRefEdges (AddAllInputOutputEdges
        (AddAllImageStreamRefEdges (AddAllInputOutputEdges g)))).OutEdges
          nm EdgeKind.BuildOutputEdge).head?
      = ((AddAllImageStreamRefEdges (AddAllInputOutputEdges g)).OutEdges
          nm EdgeKind.BuildOutputEdge).head? := by
    intro nm
    show (List.filter (fun e => decide (e.From = nm ∧ e.Kind = EdgeKind.BuildOutputEdge))
        ((((g.edges ++ inputOutputBatch g.nodes) ++ imageStreamRefBatch g.nodes)
          ++ inputOutputBatch g.nodes) ++ imageStreamRefBatch g.nodes)).head?
      = (List.filter (fun e => decide (e.From = nm ∧ e.Kind = EdgeKind.BuildOutputEdge))
        ((g.edges ++ inputOutputBatch g.nodes) ++ imageStreamRefBatch g.nodes)).head?
    simp only [List.filter_append, hB2 nm, List.append_nil]
    exact head?_append_idem _ _
  have hfun : unpushableEntry (AddAllImageStreamRefEdges (AddAllInputOutputEdges
        (AddAllImageStreamRefEdges (AddAllInputOutputEdges g))))
      = unpushableEntry (AddAllImageStreamRefEdges (AddAllInputOutputEdges g)) := by
    funext n
    unfold unpushableEntry
    rw [unpushableMarker_congr (AddAllImageStreamRefEdges (AddAllInputOutputEdges g))
      (AddAllImageStreamRefEdges (AddAllInputOutputEdges
        (AddAllImageStreamRefEdges (AddAllInputOutputEdges g)))) rfl hh n]
  constructor
  · show List.filterMap (unpushableEntry (AddAllImageStreamRefEdges (AddAllInputOutputEdges
        (AddAllImageStreamRefEdges (AddAllInputOutputEdges g))))) g.nodes
      = List.filterMap (unpushableEntry
          (AddAllImageStreamRefEdges (AddAllInputOutputEdges g))) g.nodes
    rw [hfun]
  · have hcyc : inCycle (AddAllImageStreamRefEdges (AddAllInputOutputEdges
        (AddAllImageStreamRefEdges (AddAllInputOutputEdges g))))
      = inCycle (AddAllImageStreamRefEdges (AddAllInputOutputEdges g)) :=
      funext (fun a => inCycle_congr (AddAllImageStreamRefEdges (AddAllInputOutputEdges g))
        (AddAllImageStreamRefEdges (AddAllInputOutputEdges
          (AddAllImageStreamRefEdges (AddAllInputOutputEdges g)))) rfl hm a)
    show ((g.nodes.filter (fun n => decide (n.kind = NodeKind.BuildConfigNode))).filter
        (fun n => inCycle (AddAllImageStreamRefEdges (AddAllInputOutputEdges
          (AddAllImageStreamRefEdges (AddAllInputOutputEdges g)))) n.name)).map
        (fun n => Marker.mk CircularBuildErr n.name [] Severity.error circularBuildMsg)
      = ((g.nodes.filter (fun n => decide (n.kind = NodeKind.BuildConfigNode))).filter
        (fun n => inCycle (AddAllImageStreamRefEdges (AddAllInputOutputEdges g)) n.name)).map
        (fun n => Marker.mk CircularBuildErr n.name [] Severity.error circularBuildMsg)
    rw [hcyc]

/-- Witness for C7 at the concrete graph wG2 (the quantified graph argument
instantiated). -/
theorem projectors_idempotent_markers_witness :
    FindUnpushableBuildConfigs (AddAllImageStreamRefEdges (AddAllInputOutputEdges
        (AddAllImageStreamRefEdges (AddAllInputOutputEdges wG2))))
      = FindUnpushableBuildConfigs (AddAllImageStreamRefEdges (AddAllInputOutputEdges wG2)) ∧
    FindCircularBuilds (AddAllImageStreamRefEdges (AddAllInputOutputEdges
        (AddAllImageStreamRefEdges (AddAllInputOutputEdges wG2))))
      = FindCircularBuilds (AddAllImageStreamRefEdges (AddAllInputOutputEdges wG2)) :=
  projectors_idempotent_markers wG2

/- ================= Claim theorems: registry middleware =================== -/
lemma foldl_parse_digests (parseDigest : String → Option String) :
    ∀ (items : List Image) (acc : List String),
      items.foldl (fun res img =>
        match parseDigest img.Name with
        | none => res
        | some dgst => res ++ [dgst]) acc
      = acc ++ items.filterMap (fun img => parseDigest img.Name) := by
  intro items
  induction items with
  | nil => intro acc; simp
  | cons hd tl ih =>
      intro acc
      simp only [List.foldl_cons, List.filterMap_cons]
      cases h : parseDigest hd.Name with
      | none => simp [ih]
      | some d => simp [ih, List.append_assoc]

/-- C5: when enumerating the images produced for a repository
(namespace/name), exactly those images are included whose managed-by-OpenShift
annotation is set to "true" and whose Docker image reference parses to the
same namespace and name as the target repository; images without the
annotation, with an unparsable reference, or referring to a different
namespace or name are excluded. -/
theorem getImages_exactly_matching (parseRef : String → Option DockerImageReference)
    (namespaceArg nameArg : String) (items : List Image) (img : Image) :
    ∃ l, getImages parseRef (Except.ok items) namespaceArg nameArg = Except.ok l ∧
      (img ∈ l ↔ img ∈ items ∧
        annotationValue img ManagedByOpenShiftAnnotation = "true" ∧
        ∃ ref, parseRef img.DockerImageReference = some ref ∧
          ref.Namespace = namespaceArg ∧ ref.Name = nameArg) := by
  refine ⟨_, rfl, ?_⟩
  rw [List.mem_filter]
  unfold matchesRepository
  cases h : parseRef img.DockerImageReference with
  | none => simp [h]
  | some ref => simp [h, and_assoc]

/-- C9: when the image stream lookup fails with a not-found error, Enumerate
returns no digest list and an ErrRepositoryUnknown error whose name is
"namespace/name"; for any other image-stream lookup failure it returns no
digest list and the wrapped failed-to-get error. -/
theorem Enumerate_stream_lookup_failure (parseRef : String → Option DockerImageReference)
    (parseDigest : String → Option String) (listResult : Except Unit (List Image))
    (namespaceArg nameArg : String) :
    Enumerate parseRef parseDigest (Except.error StreamLookupError.notFound)
        listResult namespaceArg nameArg
      = Except.error (EnumerateError.repositoryUnknown (namespaceArg ++ "/" ++ nameArg)) ∧
    Enumerate parseRef parseDigest (Except.error StreamLookupError.other)
        listResult namespaceArg nameArg
      = Except.error (EnumerateError.failedToGetImageStream namespaceArg nameArg) :=
  ⟨rfl, rfl⟩

/-- C10: when the image stream exists, Enumerate drops each matching image
whose object name does not parse as a digest, without error: the returned
list is exactly the parseable digests of the matching images, in input
order. -/
theorem Enumerate_drops_unparseable_names (parseRef : String → Option DockerImageReference)
    (parseDigest : String → Option String) (items : List Image)
    (namespaceArg nameArg : String) :
    Enumerate parseRef parseDigest (Except.ok ()) (Except.ok items) namespaceArg nameArg
      = Except.ok ((items.filter (matchesRepository parseRef namespaceArg nameArg)).filterMap
          (fun img => parseDigest img.Name)) := by
  unfold Enumerate getImages
  simp [foldl_parse_digests]

